import Mathlib

/-!
Verification of the ShopFloorManagement text-update core.

The JavaScript source is shallowly embedded: JS strings are `String`
(lists of characters via `String.data`), regular-expression matching is
implemented by explicit scanning functions that reproduce the exact
semantics of the concrete regexes in the source (leftmost match,
alternation order, greedy and lazy quantifiers, character classes),
case conversion is the ASCII fragment of the JS `toUpperCase` and
`toLowerCase`, and the Prisma record store is a function from business
keys to optional records with explicit state passing.  Timestamps are
abstract `Nat` ticks.
-/

namespace ShopFloor

/-! ## Character-level helpers (ASCII model of the JS string methods) -/

/-- The ASCII uppercase/lowercase pairs, the fragment of the JS case
conversion these messages exercise. -/
def caseTable : List (Char × Char) :=
  [('A', 'a'), ('B', 'b'), ('C', 'c'), ('D', 'd'), ('E', 'e'), ('F', 'f'),
   ('G', 'g'), ('H', 'h'), ('I', 'i'), ('J', 'j'), ('K', 'k'), ('L', 'l'),
   ('M', 'm'), ('N', 'n'), ('O', 'o'), ('P', 'p'), ('Q', 'q'), ('R', 'r'),
   ('S', 's'), ('T', 't'), ('U', 'u'), ('V', 'v'), ('W', 'w'), ('X', 'x'),
   ('Y', 'y'), ('Z', 'z')]

/-- ASCII model of the JS `toLowerCase` on a single character. -/
def jsToLower (c : Char) : Char :=
  ((caseTable.find? (fun p => p.1 = c)).map (fun p => p.2)).getD c

/-- ASCII model of the JS `toUpperCase` on a single character. -/
def jsToUpper (c : Char) : Char :=
  ((caseTable.find? (fun p => p.2 = c)).map (fun p => p.1)).getD c

/-- Case-insensitive character comparison, as used by the `/i` regex flag. -/
def eqI (a b : Char) : Bool := jsToLower a = jsToLower b

/-- The regex class `\s` (ASCII fragment of JS whitespace). -/
def jsIsSpace (c : Char) : Bool :=
  c = ' ' || c = '\t' || c = '\n' || c = '\r' || c = '\x0b' || c = '\x0c'

/-- The regex class `\w` = `[A-Za-z0-9_]`. -/
def isWordChar (c : Char) : Bool := c.isAlpha || c.isDigit || c = '_'

/-- The regex class `[A-Z0-9]` under the `/i` flag. -/
def isAlnum (c : Char) : Bool := c.isAlpha || c.isDigit

/-- What the regex `.` matches (anything but a line terminator). -/
def isDotChar (c : Char) : Bool := !(c = '\n' || c = '\r')

/-- The class `[A-Za-z0-9\-\s]` used by the ETA pattern. -/
def isEtaChar (c : Char) : Bool := c.isAlpha || c.isDigit || c = '-' || jsIsSpace c

/-- JS `String.prototype.trim` (ASCII whitespace model). -/
def jsTrim (cs : List Char) : List Char :=
  ((cs.dropWhile (fun c => jsIsSpace c)).reverse.dropWhile (fun c => jsIsSpace c)).reverse

/-- Substring containment: `strContains needle hay` is the JS
`hay.includes(needle)` (case-sensitive). -/
def strContains (needle : List Char) : List Char → Bool
  | [] => needle.isEmpty
  | c :: cs => needle.isPrefixOf (c :: cs) || strContains needle cs

/-- Case-insensitive literal match at the start of `cs`: returns the
matched characters (as they appear in `cs`) and the rest. -/
def matchCI : List Char → List Char → Option (List Char × List Char)
  | [], cs => some ([], cs)
  | _ :: _, [] => none
  | l :: ls, c :: cs =>
    if eqI l c then
      match matchCI ls cs with
      | some (m, rest) => some (c :: m, rest)
      | none => none
    else none

/-- Leftmost-match scanning: try the position-local matcher `f` at every
start position, left to right, and return the first success. -/
def scanFirst (f : List Char → Option α) : List Char → Option α
  | [] => none
  | c :: cs =>
    match f (c :: cs) with
    | some r => some r
    | none => scanFirst f cs

/-- JS `charAt(0).toUpperCase() + slice(1).toLowerCase()` title-casing. -/
def titleCase : List Char → List Char
  | [] => []
  | c :: cs => jsToUpper c :: cs.map jsToLower

/-! ## Normalizers

`normalizeStatus` embeds `normalizeStatus` from
`src/modules/shop-floor/utils.js`; `normalizeMachineStatus` embeds the
textually identical function from the WhatsApp parser utilities, and
`normalizeOrderStage` the order-stage normalizer next to it. -/

/-- `normalizeStatus` (utils.js): title-case the raw word, then test
substring containment of the lowercase stems, first match wins. -/
def normalizeStatus (status : String) : String :=
  let normalized := titleCase status.data
  if strContains "run".data normalized then "Running"
  else if strContains "idle".data normalized then "Idle"
  else if strContains "maintain".data normalized then "Maintenance"
  else if strContains "error".data normalized || strContains "down".data normalized then "Error"
  else String.mk normalized

/-- `normalizeMachineStatus` (whatsappParser.js), same body as
`normalizeStatus`. -/
def normalizeMachineStatus (status : String) : String :=
  let normalized := titleCase status.data
  if strContains "run".data normalized then "Running"
  else if strContains "idle".data normalized then "Idle"
  else if strContains "maintain".data normalized then "Maintenance"
  else if strContains "error".data normalized || strContains "down".data normalized then "Error"
  else String.mk normalized

/-- `normalizeOrderStage` (whatsappParser.js / orders service). -/
def normalizeOrderStage (stage : String) : String :=
  let normalized := titleCase stage.data
  if strContains "plan".data normalized then "Planning"
  else if strContains "product".data normalized then "Production"
  else if strContains "quality".data normalized || strContains "qc".data normalized then "Quality"
  else if strContains "pack".data normalized then "Packaging"
  else if strContains "ship".data normalized then "Shipping"
  else if strContains "complete".data normalized || strContains "done".data normalized then "Completed"
  else String.mk normalized

/-! ## Regex building blocks

Each concrete regex of the source is realised by a position-local
matcher run through `scanFirst` (leftmost match).  Greedy `[=:]?` and
`\s*` are given their full backtracking behaviour by trying the
candidate continuations in the order the JS engine would. -/

/-- First success of `f` over a candidate list. -/
def firstSome (f : α → Option β) : List α → Option β
  | [] => none
  | x :: xs =>
    match f x with
    | some r => some r
    | none => firstSome f xs

/-- Continuations after the optional separator `[=:]?`, in greedy
(consume-first) order. -/
def sepCandidates : List Char → List (List Char)
  | [] => [[]]
  | c :: cs => if c = '=' || c = ':' then [cs, c :: cs] else [c :: cs]

/-- Continuations after `\s*`, in greedy (most-consumed-first) order. -/
def spaceCandidates (cs : List Char) : List (List Char) :=
  let n := (cs.takeWhile (fun c => jsIsSpace c)).length
  (List.range (n + 1)).map (fun i => cs.drop (n - i))

/-- A greedy one-or-more character-class capture (`\w+`, `\d+`, ...). -/
def capClass (p : Char → Bool) (cs : List Char) : Option (List Char × List Char) :=
  let t := cs.takeWhile p
  if t.isEmpty then none else some (t, cs.drop t.length)

/-- A capture that is an ordered alternation of case-insensitive
literals (for example `(Low|Medium|High|Urgent)`).  The capture is the
text as written in the message. -/
def capAlts (alts : List (List Char)) (cs : List Char) : Option (List Char × List Char) :=
  firstSome (fun a => matchCI a cs) alts

/-- The lazy capture `(.+?)` followed by a stop condition (the rest of
the pattern or `$`): take at least one `.`-matchable character, then
stop at the earliest point where `stopOk` holds. -/
def lazyDotGo (stopOk : List Char → Bool) (acc : List Char) (rest : List Char) : Option (List Char) :=
  if stopOk rest then some acc.reverse
  else
    match rest with
    | [] => none
    | c :: cs => if isDotChar c then lazyDotGo stopOk (c :: acc) cs else none

/-- Entry point of the lazy capture: the first character. -/
def lazyDotFrom (stopOk : List Char → Bool) : List Char → Option (List Char)
  | [] => none
  | c :: cs => if isDotChar c then lazyDotGo stopOk [c] cs else none

/-- Position-local matcher for `LABEL[=:]?\s*(capture)`. -/
def labelCap (label : List Char) (cap : List Char → Option (List Char × List Char))
    (cs : List Char) : Option (List Char) :=
  match matchCI label cs with
  | none => none
  | some (_, rest) =>
    firstSome (fun r1 => firstSome (fun r2 => (cap r2).map (fun pr => pr.1)) (spaceCandidates r1))
      (sepCandidates rest)

/-- Position-local matcher for `LABEL[=:]?\s*(.+?)` with a stop. -/
def labelCapLazy (label : List Char) (stopOk : List Char → Bool)
    (cs : List Char) : Option (List Char) :=
  match matchCI label cs with
  | none => none
  | some (_, rest) =>
    firstSome (fun r1 => firstSome (lazyDotFrom stopOk) (spaceCandidates r1))
      (sepCandidates rest)

/-- The stop `(?:\s+(?:L1|L2|...)|$)`: end of string, or one-or-more
spaces followed by one of the labels. -/
def stopAtLabels (labels : List (List Char)) (rest : List Char) : Bool :=
  rest.isEmpty ||
    (let sp := rest.takeWhile (fun c => jsIsSpace c)
     !sp.isEmpty && (firstSome (fun l => matchCI l (rest.drop sp.length)) labels).isSome)

/-- The stop `$` alone. -/
def stopAtEnd (rest : List Char) : Bool := rest.isEmpty

/-- Position-local matcher for `M\d+` (machine code): returns the
matched text. -/
def mDigits : List Char → Option (List Char)
  | [] => none
  | c :: rest =>
    if eqI 'M' c then
      let ds := rest.takeWhile (fun c => c.isDigit)
      if ds.isEmpty then none else some (c :: ds)
    else none

/-- Position-local matcher for `ORD\d+` (used by `detectIntent`). -/
def ordDigits (cs : List Char) : Option (List Char) :=
  match matchCI "ORD".data cs with
  | none => none
  | some (m, rest) =>
    let ds := rest.takeWhile (fun c => c.isDigit)
    if ds.isEmpty then none else some (m ++ ds)

/-- `digitsToNat` is `parseInt(s, 10)` on an all-digit capture. -/
def digitsToNat (ds : List Char) : Nat :=
  ds.foldl (fun n c => n * 10 + (c.toNat - 48)) 0

/-! ## Intent classifier (`detectIntent`, whatsappParser.js) -/

/-- Does `^M\d+` accept the (already trimmed) text? -/
def startsWithMDigits (cs : List Char) : Bool := (mDigits cs).isSome

/-- `detectIntent`: empty input is falsy and yields UNKNOWN; then the
three checks in source order. -/
def detectIntent (message : String) : String :=
  if message.data.isEmpty then "UNKNOWN"
  else
    let upperMessage := message.data.map jsToUpper
    if startsWithMDigits (jsTrim message.data) then "MACHINE_UPDATE"
    else if strContains "SAFETY".data upperMessage then "SAFETY_UPDATE"
    else if strContains "ORDER".data upperMessage || (scanFirst ordDigits message.data).isSome then
      "ORDER_UPDATE"
    else "UNKNOWN"

/-! ## Machine extractor (`parseMachineUpdate`, whatsappParser.js)

Fields absent from the message are omitted (the JS null-removal pass),
modelled by `Option`; `machine_id` is mandatory. -/

structure MachineParsed where
  machine_id : String
  status : Option String
  output : Option Nat
  error_message : Option String
  operator : Option String
  deriving Repr, DecidableEq

/-- `parseMachineUpdate`: requires an `M\d+` token; the other fields
are matched by the regexes of the source and normalized/trimmed the
same way. -/
def parseMachineUpdate (message : String) : Option MachineParsed :=
  if message.data.isEmpty then none
  else
    let cs := message.data
    match scanFirst mDigits cs with
    | none => none
    | some tok =>
      some
        { machine_id := String.mk (tok.map jsToUpper)
          status := (scanFirst (labelCap "STATUS".data (capClass isWordChar)) cs).map
            (fun w => normalizeMachineStatus (String.mk w))
          output := (scanFirst (labelCap "OUTPUT".data (capClass (fun c => c.isDigit))) cs).map
            digitsToNat
          error_message := (scanFirst
              (labelCapLazy "ERROR".data
                (stopAtLabels ["OPERATOR".data, "STATUS".data, "OUTPUT".data])) cs).map
            (fun t => String.mk (jsTrim t))
          operator := (scanFirst (labelCapLazy "OPERATOR".data stopAtEnd) cs).map
            (fun t => String.mk (jsTrim t)) }

/-! ## Order extractor (`parseOrderUpdate`, whatsappParser.js) -/

/-- The extractor output; `status` is always present because the source
sets the default `Active` whenever the STATUS pattern does not match. -/
structure OrderParsed where
  order_id : String
  stage : Option String
  priority : Option String
  quantity : Option Nat
  materials : Option String
  eta : Option String
  status : String
  assigned_to : Option String
  deriving Repr, DecidableEq

/-- Position-local matcher for `ORD[A-Z0-9]+|\bORDER\s+([A-Z0-9]+)`:
alternative 1 first; alternative 2 needs a word boundary before the
position (`prev` is the previous character, if any).  Returns the whole
matched text (`match[0]`). -/
def ordIdLocal (prev : Option Char) (cs : List Char) : Option (List Char) :=
  let alt2 : Option (List Char) :=
    if prev.all (fun c => !isWordChar c) then
      match matchCI "ORDER".data cs with
      | none => none
      | some (m, rest) =>
        let sp := rest.takeWhile (fun c => jsIsSpace c)
        if sp.isEmpty then none
        else
          let t := (rest.drop sp.length).takeWhile isAlnum
          if t.isEmpty then none else some (m ++ sp ++ t)
    else none
  match matchCI "ORD".data cs with
  | none => alt2
  | some (m, rest) =>
    let t := rest.takeWhile isAlnum
    if t.isEmpty then alt2 else some (m ++ t)

/-- Leftmost scan that also tracks the previous character, needed for
the `\b` in the order-id regex. -/
def scanFirstPrev (f : Option Char → List Char → Option α) (prev : Option Char) :
    List Char → Option α
  | [] => none
  | c :: cs =>
    match f prev (c :: cs) with
    | some r => some r
    | none => scanFirstPrev f (some c) cs

/-- `replace(/^ORDER\s+/i, "")` on the uppercased match. -/
def stripLeadingOrderWord (cs : List Char) : List Char :=
  match matchCI "ORDER".data cs with
  | none => cs
  | some (_, rest) =>
    if (rest.takeWhile (fun c => jsIsSpace c)).isEmpty then cs
    else rest.dropWhile (fun c => jsIsSpace c)

/-- The order-id post-processing of the source: uppercase the match,
strip a leading `ORDER ` if present, then prefix `ORD` when missing. -/
def orderIdOf (tok : List Char) : List Char :=
  let up := stripLeadingOrderWord (tok.map jsToUpper)
  if "ORD".data.isPrefixOf up then up else "ORD".data ++ up

/-- `parseOrderUpdate`: requires the order-id pattern; every other
field mirrors one regex of the source; `status` falls back to the
unconditional `Active` default. -/
def parseOrderUpdate (message : String) : Option OrderParsed :=
  if message.data.isEmpty then none
  else
    let cs := message.data
    match scanFirstPrev ordIdLocal none cs with
    | none => none
    | some tok =>
      some
        { order_id := String.mk (orderIdOf tok)
          stage := (scanFirst (labelCap "STAGE".data (capClass isWordChar)) cs).map
            (fun w => normalizeOrderStage (String.mk w))
          priority := (scanFirst
              (labelCap "PRIORITY".data
                (capAlts ["Low".data, "Medium".data, "High".data, "Urgent".data])) cs).map
            (fun w => String.mk (titleCase w))
          quantity := (scanFirst
              (fun p =>
                match labelCap "QUANTITY".data (capClass (fun c => c.isDigit)) p with
                | some r => some r
                | none => labelCap "QTY".data (capClass (fun c => c.isDigit)) p) cs).map
            digitsToNat
          materials := (scanFirst
              (labelCapLazy "MATERIALS".data
                (stopAtLabels ["STAGE".data, "ETA".data, "PRIORITY".data])) cs).map
            (fun t => String.mk (jsTrim t))
          eta := (scanFirst (labelCap "ETA".data (capClass isEtaChar)) cs).map
            (fun t => String.mk (jsTrim t))
          status :=
            match scanFirst
                (labelCap "STATUS".data
                  (capAlts ["Active".data, "OnHold".data, "Completed".data, "Cancelled".data]))
                cs with
            | some w => String.mk (titleCase w)
            | none => "Active"
          assigned_to := (scanFirst (labelCapLazy "ASSIGNED".data stopAtEnd) cs).map
            (fun t => String.mk (jsTrim t)) }

/-! ## Machine service (`service.js` of the shop-floor module)

A persisted machine row, an update object, and the upsert.  An update
field that the caller did not supply is `none` (absent from the JS
object); `error_message` distinguishes absent (`none`), explicit null
(`some none`) and a string value (`some (some s)`) because the
validator writes an explicit null that the Prisma patch then persists.
The record store is a function from machine ids to optional rows, and
`new Date()` is the abstract tick `now`. -/

structure Machine where
  machine_id : String
  name : String
  status : String
  output : Nat
  error_message : Option String
  operator : Option String
  last_updated : Nat
  deriving Repr, DecidableEq

structure MachineUpdate where
  machine_id : Option String := none
  name : Option String := none
  status : Option String := none
  output : Option Nat := none
  error_message : Option (Option String) := none
  operator : Option String := none
  deriving Repr, DecidableEq

/-- JS truthiness of an optional string field (absent and the empty
string are falsy). -/
def optTruthy : Option String → Bool
  | some s => !s.isEmpty
  | none => false

/-- JS truthiness of the three-state `error_message` field. -/
def fieldTruthy : Option (Option String) → Bool
  | some (some s) => !s.isEmpty
  | _ => false

def VALID_STATUSES : List String := ["Running", "Idle", "Maintenance", "Error"]

/-- `applyStatusValidation` (utils.js): the three sequential rules on
the update object. -/
def applyStatusValidation (data : MachineUpdate) : MachineUpdate :=
  let v1 :=
    if data.status = some "Error" && !fieldTruthy data.error_message then
      { data with error_message := some (some "Machine error detected") }
    else data
  let v2 :=
    if optTruthy v1.status && v1.status ≠ some "Error" && fieldTruthy v1.error_message then
      { v1 with error_message := some none }
    else v1
  if v2.status = some "Idle" && v2.output.isSome && v2.output ≠ some 0 then
    { v2 with output := some 0 }
  else v2

abbrev MStore := String → Option Machine

/-- The `prisma.machine.upsert` call of `updateMachine`: merge the
validated patch over an existing row, or create with the source
defaults. -/
def upsertMachine (store : MStore) (machineId : String) (v : MachineUpdate)
    (now : Nat) : Machine :=
  match store machineId with
  | some m =>
    { machine_id := v.machine_id.getD m.machine_id
      name := v.name.getD m.name
      status := v.status.getD m.status
      output := v.output.getD m.output
      error_message :=
        match v.error_message with
        | none => m.error_message
        | some e => e
      operator :=
        match v.operator with
        | none => m.operator
        | some o => some o
      last_updated := now }
  | none =>
    { machine_id := machineId
      name := if optTruthy v.name then v.name.getD "" else "Machine " ++ machineId
      status := if optTruthy v.status then v.status.getD "" else "Idle"
      output := v.output.getD 0
      error_message :=
        match v.error_message with
        | some (some s) => some s
        | _ => none
      operator := v.operator
      last_updated := now }

/-- `updateMachine`: validate an explicitly supplied status, run
`applyStatusValidation`, then upsert.  Returns the resulting row and
store. -/
def updateMachine (store : MStore) (machineId : String) (updateData : MachineUpdate)
    (now : Nat) : Except String (Machine × MStore) :=
  if optTruthy updateData.status && !VALID_STATUSES.contains (updateData.status.getD "") then
    .error ("Failed to update machine " ++ machineId ++ ": Invalid status: " ++
      updateData.status.getD "" ++ ". Must be one of: Running, Idle, Maintenance, Error")
  else
    let machine := upsertMachine store machineId (applyStatusValidation updateData) now
    .ok (machine, fun k => if k = machineId then some machine else store k)

/-- A per-item batch outcome (`{success:true, machine}` or
`{success:false, machine_id, error}`). -/
inductive MOutcome where
  | success (machine : Machine)
  | failure (machine_id : String) (error : String)
  deriving Repr, DecidableEq

def MOutcome.isSuccess : MOutcome → Bool
  | success _ => true
  | failure _ _ => false

/-- One iteration of the machine batch loop: a falsy `machine_id` or a
failing upsert becomes a per-item failure that leaves the store
untouched. -/
def machineItemOutcome (store : MStore) (d : MachineUpdate) (now : Nat) :
    MOutcome × MStore :=
  if !optTruthy d.machine_id then
    (MOutcome.failure "unknown" "machine_id is required", store)
  else
    match updateMachine store (d.machine_id.getD "") d now with
    | .ok (m, st) => (MOutcome.success m, st)
    | .error e => (MOutcome.failure (d.machine_id.getD "") e, store)

/-- `batchUpdateMachines`: sequential per-item processing; the loop
continues past per-item failures. -/
def batchUpdateMachines (store : MStore) (machinesData : List MachineUpdate) (now : Nat) :
    List MOutcome × MStore :=
  match machinesData with
  | [] => ([], store)
  | d :: rest =>
    let r := machineItemOutcome store d now
    let rs := batchUpdateMachines r.2 rest now
    (r.1 :: rs.1, rs.2)

/-- The batch controller aggregate `results.filter(r => r.success).length`. -/
def successCountM (results : List MOutcome) : Nat :=
  (results.filter (fun r => r.isSuccess)).length

/-- The batch controller aggregate `results.filter(r => !r.success).length`. -/
def failureCountM (results : List MOutcome) : Nat :=
  (results.filter (fun r => !r.isSuccess)).length

/-! ## Order service (orders service.js) -/

structure Order where
  order_id : String
  customer_name : Option String
  stage : String
  priority : String
  quantity : Nat
  materials : Option String
  eta : Option String
  status : String
  assigned_to : Option String
  created_at : Nat
  updated_at : Nat
  deriving Repr, DecidableEq

structure OrderUpdate where
  order_id : Option String := none
  customer_name : Option String := none
  stage : Option String := none
  priority : Option String := none
  quantity : Option Nat := none
  materials : Option String := none
  eta : Option String := none
  status : Option String := none
  assigned_to : Option String := none
  deriving Repr, DecidableEq

def VALID_STAGES : List String :=
  ["Planning", "Production", "Quality", "Packaging", "Shipping", "Completed"]

def VALID_ORDER_STATUSES : List String := ["Active", "OnHold", "Completed", "Cancelled"]

def VALID_PRIORITIES : List String := ["Low", "Medium", "High", "Urgent"]

abbrev OStore := String → Option Order

/-- `x || null` on an optional string create-field: the empty string
collapses to null. -/
def orNull : Option String → Option String
  | some s => if s.isEmpty then none else some s
  | none => none

/-- The `prisma.order.upsert` call of `updateOrder`: merge the patch
over an existing row, or create with the source defaults. -/
def upsertOrder (store : OStore) (orderId : String) (updateData : OrderUpdate)
    (now : Nat) : Order :=
  match store orderId with
  | some o =>
    { order_id := updateData.order_id.getD o.order_id
      customer_name :=
        match updateData.customer_name with
        | none => o.customer_name
        | some c => some c
      stage := updateData.stage.getD o.stage
      priority := updateData.priority.getD o.priority
      quantity := updateData.quantity.getD o.quantity
      materials :=
        match updateData.materials with
        | none => o.materials
        | some m => some m
      eta :=
        match updateData.eta with
        | none => o.eta
        | some e => some e
      status := updateData.status.getD o.status
      assigned_to :=
        match updateData.assigned_to with
        | none => o.assigned_to
        | some a => some a
      created_at := o.created_at
      updated_at := now }
  | none =>
    { order_id := orderId
      customer_name := orNull updateData.customer_name
      stage := if optTruthy updateData.stage then updateData.stage.getD "" else "Planning"
      priority :=
        if optTruthy updateData.priority then updateData.priority.getD "" else "Medium"
      quantity := updateData.quantity.getD 0
      materials := orNull updateData.materials
      eta := orNull updateData.eta
      status := if optTruthy updateData.status then updateData.status.getD "" else "Active"
      assigned_to := orNull updateData.assigned_to
      created_at := now
      updated_at := now }

/-- `updateOrder`: the three enum validations, then the upsert with
the create defaults of the source. -/
def updateOrder (store : OStore) (orderId : String) (updateData : OrderUpdate)
    (now : Nat) : Except String (Order × OStore) :=
  if optTruthy updateData.stage && !VALID_STAGES.contains (updateData.stage.getD "") then
    .error ("Failed to update order " ++ orderId ++ ": Invalid stage: " ++
      updateData.stage.getD "" ++
      ". Must be one of: Planning, Production, Quality, Packaging, Shipping, Completed")
  else if optTruthy updateData.status &&
      !VALID_ORDER_STATUSES.contains (updateData.status.getD "") then
    .error ("Failed to update order " ++ orderId ++ ": Invalid status: " ++
      updateData.status.getD "" ++ ". Must be one of: Active, OnHold, Completed, Cancelled")
  else if optTruthy updateData.priority &&
      !VALID_PRIORITIES.contains (updateData.priority.getD "") then
    .error ("Failed to update order " ++ orderId ++ ": Invalid priority: " ++
      updateData.priority.getD "" ++ ". Must be one of: Low, Medium, High, Urgent")
  else
    let order := upsertOrder store orderId updateData now
    .ok (order, fun k => if k = orderId then some order else store k)

inductive OOutcome where
  | success (order : Order)
  | failure (order_id : String) (error : String)
  deriving Repr, DecidableEq

def OOutcome.isSuccess : OOutcome → Bool
  | success _ => true
  | failure _ _ => false

/-- One iteration of the order batch loop. -/
def orderItemOutcome (store : OStore) (d : OrderUpdate) (now : Nat) :
    OOutcome × OStore :=
  if !optTruthy d.order_id then
    (OOutcome.failure "unknown" "order_id is required", store)
  else
    match updateOrder store (d.order_id.getD "") d now with
    | .ok (o, st) => (OOutcome.success o, st)
    | .error e => (OOutcome.failure (d.order_id.getD "") e, store)

/-- `batchUpdateOrders`: sequential per-item processing, mirroring the
machine batch. -/
def batchUpdateOrders (store : OStore) (ordersData : List OrderUpdate) (now : Nat) :
    List OOutcome × OStore :=
  match ordersData with
  | [] => ([], store)
  | d :: rest =>
    let r := orderItemOutcome store d now
    let rs := batchUpdateOrders r.2 rest now
    (r.1 :: rs.1, rs.2)

/-- The orders batch controller aggregate of successes. -/
def successCountO (results : List OOutcome) : Nat :=
  (results.filter (fun r => r.isSuccess)).length

/-- The orders batch controller aggregate of failures. -/
def failureCountO (results : List OOutcome) : Nat :=
  (results.filter (fun r => !r.isSuccess)).length

/-! ## Declarative spec-side predicates

These restate, in declarative form, the classifier conditions as the
specification words them; the classifier theorem relates `detectIntent`
to them. -/

/-- The trimmed text starts with the letter M (either case) followed by
a digit. -/
def MachineStartSpec (s : String) : Prop :=
  ∃ c d r, jsTrim s.data = c :: d :: r ∧ jsToUpper c = 'M' ∧ d.isDigit = true

/-- The text contains the given (uppercase) token case-insensitively. -/
def ContainsTokenSpec (s : String) (tok : List Char) : Prop :=
  tok <:+: s.data.map jsToUpper

/-- The text contains an `ORD` + digit pattern somewhere
(case-insensitively). -/
def OrdCodeSpec (s : String) : Prop :=
  ∃ l r c1 c2 c3 d, s.data = l ++ c1 :: c2 :: c3 :: d :: r ∧
    jsToUpper c1 = 'O' ∧ jsToUpper c2 = 'R' ∧ jsToUpper c3 = 'D' ∧ d.isDigit = true

/-! ## Sample records used by concrete counterexamples and witnesses -/

/-- A persisted machine in Error state carrying an error description. -/
def mErr : Machine :=
  { machine_id := "M01", name := "Machine M01", status := "Error", output := 40,
    error_message := some "Overheat", operator := some "Arun", last_updated := 0 }

/-- A persisted machine running with output 80 and operator Arun. -/
def mRun : Machine :=
  { machine_id := "M02", name := "Machine M02", status := "Running", output := 80,
    error_message := none, operator := some "Arun", last_updated := 0 }

def storeErr : MStore := fun k => if k = "M01" then some mErr else none

def storeRun : MStore := fun k => if k = "M02" then some mRun else none

/-- A persisted order currently on hold. -/
def oHold : Order :=
  { order_id := "ORD77", customer_name := none, stage := "Production", priority := "High",
    quantity := 10, materials := none, eta := none, status := "OnHold",
    assigned_to := none, created_at := 0, updated_at := 0 }

def storeHold : OStore := fun k => if k = "ORD77" then some oHold else none

/-- The empty record stores. -/
def emptyM : MStore := fun _ => none

def emptyO : OStore := fun _ => none

/-! ## Evaluation checks of the embedded parsers on the concrete
formats documented in the source -/

example : normalizeStatus "down" = "Down" := by decide
example : normalizeStatus "breakdown" = "Error" := by decide
example : normalizeStatus "run" = "Run" := by decide
example : normalizeStatus "rerun" = "Running" := by decide
example : normalizeStatus "running" = "Running" := by decide
example : normalizeOrderStage "Packaging" = "Packaging" := by decide

example : detectIntent "M03 STATUS=Running" = "MACHINE_UPDATE" := by decide
example : detectIntent " m12" = "MACHINE_UPDATE" := by decide
example : detectIntent "safety WeldingZone" = "SAFETY_UPDATE" := by decide
example : detectIntent "ord123 ready" = "ORDER_UPDATE" := by decide
example : detectIntent "hello" = "UNKNOWN" := by decide
example : detectIntent "" = "UNKNOWN" := by decide

example :
    parseMachineUpdate "M03 STATUS=Running OUTPUT=130 OPERATOR=Arun" =
      some { machine_id := "M03", status := some "Running", output := some 130,
             error_message := none, operator := some "Arun" } := by decide

example :
    parseMachineUpdate "m7 status:down error: jammed belt operator: Vik" =
      some { machine_id := "M7", status := some "Down", output := none,
             error_message := some "jammed belt", operator := some "Vik" } := by decide

example :
    parseOrderUpdate "ORD77 QTY=5" =
      some { order_id := "ORD77", stage := none, priority := none,
             quantity := some 5, materials := none, eta := none,
             status := "Active", assigned_to := none } := by decide

example :
    parseOrderUpdate "ord9 STATUS=OnHold" =
      some { order_id := "ORD9", stage := none, priority := none,
             quantity := none, materials := none, eta := none,
             status := "Onhold", assigned_to := none } := by decide

/-! ## Character lemmas -/

theorem caseTable_snd_unique :
    ∀ p ∈ caseTable, ∀ q ∈ caseTable, p.2 = q.2 → p.1 = q.1 := by decide

theorem caseTable_fst_ne_snd : ∀ p ∈ caseTable, ∀ q ∈ caseTable, p.1 ≠ q.2 := by decide

/-- If no table entry has `c` as its lowercase column, `jsToUpper`
fixes `c`. -/
theorem jsToUpper_eq_self_of (c : Char) (h : ∀ p ∈ caseTable, p.2 ≠ c) :
    jsToUpper c = c := by
  unfold jsToUpper
  have hf : caseTable.find? (fun p => p.2 = c) = none := by
    rw [List.find?_eq_none]
    intro p hp
    simpa using h p hp
  rw [hf]
  rfl

/-- `jsToUpper` is idempotent. -/
theorem jsToUpper_idem (c : Char) : jsToUpper (jsToUpper c) = jsToUpper c := by
  rcases hf : caseTable.find? (fun p => p.2 = c) with _ | p
  · have h1 : jsToUpper c = c := by unfold jsToUpper; rw [hf]; rfl
    rw [h1]
    exact h1
  · have hp : p ∈ caseTable := List.mem_of_find?_eq_some hf
    have h1 : jsToUpper c = p.1 := by unfold jsToUpper; rw [hf]; rfl
    rw [h1]
    exact jsToUpper_eq_self_of p.1 (fun q hq he => caseTable_fst_ne_snd p hp q hq he.symm)

/-- An uppercase table letter is fixed by `jsToUpper`. -/
theorem jsToUpper_fst (u l : Char) (hm : (u, l) ∈ caseTable) : jsToUpper u = u :=
  jsToUpper_eq_self_of u (fun q hq he => caseTable_fst_ne_snd (u, l) hm q hq he.symm)

/-- Any character whose `jsToLower` image is the lowercase column of a
table entry uppercases to the matching uppercase column. -/
theorem jsToUpper_of_lower (u l c : Char) (hm : (u, l) ∈ caseTable)
    (h : jsToLower c = l) : jsToUpper c = u := by
  unfold jsToLower at h
  rcases hf : caseTable.find? (fun p => p.1 = c) with _ | p
  · rw [hf] at h
    simp at h
    subst h
    fin_cases hm <;> decide
  · rw [hf] at h
    simp at h
    have hppred : p.1 = c := by simpa using List.find?_some hf
    have hpmem : p ∈ caseTable := List.mem_of_find?_eq_some hf
    have hcu : c = u := by
      have := caseTable_snd_unique p hpmem (u, l) hm (by simpa using h)
      rw [← hppred, this]
    subst hcu
    exact jsToUpper_fst c l hm

/-- Digits are fixed by `jsToUpper`. -/
theorem jsToUpper_digit (c : Char) (h : c.isDigit) : jsToUpper c = c := by
  refine jsToUpper_eq_self_of c (fun p hp he => ?_)
  have hall : ∀ p ∈ caseTable, p.2.isDigit = false := by decide
  have h2 := hall p hp
  rw [he] at h2
  rw [h2] at h
  exact Bool.false_ne_true h

/-- `eqI u c` for an uppercase table letter holds exactly on the two
cased forms of the letter. -/
theorem eqI_upper_iff (u l c : Char) (hm : (u, l) ∈ caseTable) :
    eqI u c = true ↔ c = u ∨ c = l := by
  have hul : jsToLower u = l := by fin_cases hm <;> decide
  have hll : jsToLower l = l := by fin_cases hm <;> decide
  constructor
  · intro h
    unfold eqI at h
    rw [hul] at h
    have hlc : jsToLower c = l := (of_decide_eq_true h).symm
    unfold jsToLower at hlc
    rcases hf : caseTable.find? (fun p => p.1 = c) with _ | p
    · rw [hf] at hlc; simp at hlc; right; exact hlc
    · rw [hf] at hlc
      simp at hlc
      have hppred : p.1 = c := by simpa using List.find?_some hf
      have hpmem : p ∈ caseTable := List.mem_of_find?_eq_some hf
      left
      have := caseTable_snd_unique p hpmem (u, l) hm (by simpa using hlc)
      rw [← hppred, this]
  · rintro (rfl | rfl)
    · simp [eqI]
    · unfold eqI
      rw [hul, hll]
      simp

/-- `jsToUpper c = u` for a table letter holds exactly on its two cased
forms. -/
theorem jsToUpper_eq_upper_iff (u l c : Char) (hm : (u, l) ∈ caseTable) :
    jsToUpper c = u ↔ c = u ∨ c = l := by
  have huniqfst : ∀ a ∈ caseTable, ∀ b ∈ caseTable, a.1 = b.1 → a.2 = b.2 := by decide
  have hll : jsToLower l = l := by fin_cases hm <;> decide
  constructor
  · intro h
    rcases hf : caseTable.find? (fun p => p.2 = c) with _ | p
    · left
      have h1 : jsToUpper c = c := by unfold jsToUpper; rw [hf]; rfl
      rw [← h, h1]
    · have hppred : p.2 = c := by simpa using List.find?_some hf
      have hpmem : p ∈ caseTable := List.mem_of_find?_eq_some hf
      have h1 : jsToUpper c = p.1 := by unfold jsToUpper; rw [hf]; rfl
      rw [h1] at h
      right
      have h2 : p = (u, c) := by
        rcases p with ⟨p1, p2⟩
        simp only at hppred h
        simp [hppred, h]
      rw [h2] at hpmem
      have h3 : ((u, c) : Char × Char).2 = ((u, l) : Char × Char).2 :=
        huniqfst (u, c) hpmem (u, l) hm rfl
      simpa using h3
  · rintro (rfl | rfl)
    · exact jsToUpper_fst _ _ hm
    · exact jsToUpper_of_lower _ _ _ hm hll

/-- `eqI` and `jsToUpper` agree on table letters. -/
theorem eqI_iff_jsToUpper (u l c : Char) (hm : (u, l) ∈ caseTable) :
    eqI u c = true ↔ jsToUpper c = u := by
  rw [eqI_upper_iff u l c hm, jsToUpper_eq_upper_iff u l c hm]

/-! ## String lemmas -/

/-- `strContains` is substring containment. -/
theorem strContains_iff (nd hay : List Char) : strContains nd hay = true ↔ nd <:+: hay := by
  induction hay with
  | nil =>
    simp only [strContains, List.isEmpty_iff]
    constructor
    · intro h; rw [h]
    · intro h
      simpa using List.eq_nil_of_infix_nil h
  | cons c cs ih =>
    simp only [strContains, Bool.or_eq_true, ih, List.infix_cons_iff,
      List.isPrefixOf_iff_prefix]

/-- A successful `matchCI` splits the input and matches the label
characterwise, case-insensitively. -/
theorem matchCI_some (l : List Char) :
    ∀ cs m rest, matchCI l cs = some (m, rest) →
      cs = m ++ rest ∧ List.Forall₂ (fun a b => eqI a b = true) l m := by
  induction l with
  | nil =>
    intro cs m rest h
    simp only [matchCI, Option.some.injEq, Prod.mk.injEq] at h
    obtain ⟨h1, h2⟩ := h
    subst h1; subst h2
    exact ⟨rfl, List.Forall₂.nil⟩
  | cons a ls ih =>
    intro cs m rest h
    match cs with
    | [] => simp [matchCI] at h
    | c :: cs' =>
      simp only [matchCI] at h
      by_cases he : eqI a c = true
      · rw [if_pos he] at h
        rcases hrec : matchCI ls cs' with _ | ⟨m', rest'⟩
        · rw [hrec] at h; exact absurd h (by simp)
        · rw [hrec] at h
          simp only [Option.some.injEq, Prod.mk.injEq] at h
          obtain ⟨h1, h2⟩ := h
          subst h1; subst h2
          obtain ⟨hsplit, hall⟩ := ih cs' m' rest' hrec
          exact ⟨by rw [hsplit]; rfl, List.Forall₂.cons he hall⟩
      · rw [if_neg he] at h
        exact absurd h (by simp)

/-- Converse: a characterwise case-insensitive match succeeds. -/
theorem matchCI_of_forall₂ {l m : List Char}
    (h : List.Forall₂ (fun a b => eqI a b = true) l m) :
    ∀ rest, matchCI l (m ++ rest) = some (m, rest) := by
  induction h with
  | nil => intro rest; rfl
  | @cons a b ls ms hab _ ih =>
    intro rest
    simp only [List.cons_append, matchCI, if_pos hab, List.append_eq, ih rest]

/-- Leftmost-scan characterization: a successful scan happens at a
position before the end, with every earlier position failing. -/
theorem scanFirst_eq_some_iff {α : Type} (f : List Char → Option α) :
    ∀ (cs : List Char) (r : α),
      scanFirst f cs = some r ↔
        ∃ n, n < cs.length ∧ f (cs.drop n) = some r ∧ ∀ m, m < n → f (cs.drop m) = none := by
  intro cs
  induction cs with
  | nil => intro r; simp [scanFirst]
  | cons c cs ih =>
    intro r
    simp only [scanFirst]
    rcases hf : f (c :: cs) with _ | r'
    · constructor
      · intro h
        obtain ⟨n, hn, hsome, hnone⟩ := (ih r).mp h
        refine ⟨n + 1, by simpa using Nat.succ_lt_succ hn, by simpa using hsome, ?_⟩
        intro m hm
        match m with
        | 0 => simpa using hf
        | m' + 1 => simpa using hnone m' (Nat.lt_of_succ_lt_succ hm)
      · rintro ⟨n, hn, hsome, hnone⟩
        match n with
        | 0 => simp at hsome; rw [hf] at hsome; exact absurd hsome (by simp)
        | n' + 1 =>
          refine (ih r).mpr ⟨n', Nat.lt_of_succ_lt_succ hn, by simpa using hsome, ?_⟩
          intro m hm
          simpa using hnone (m + 1) (Nat.succ_lt_succ hm)
    · constructor
      · intro h
        simp only [Option.some.injEq] at h
        subst h
        exact ⟨0, by simp, by simpa using hf, by omega⟩
      · rintro ⟨n, hn, hsome, hnone⟩
        match n with
        | 0 => simp at hsome; rw [hf] at hsome; simpa using hsome
        | n' + 1 =>
          have := hnone 0 (by omega)
          simp at this
          rw [hf] at this
          exact absurd this (by simp)

/-- A scan fails exactly when every position fails. -/
theorem scanFirst_eq_none_iff {α : Type} (f : List Char → Option α) (cs : List Char) :
    scanFirst f cs = none ↔ ∀ n, n < cs.length → f (cs.drop n) = none := by
  induction cs with
  | nil => simp [scanFirst]
  | cons c cs ih =>
    simp only [scanFirst]
    rcases hf : f (c :: cs) with _ | r'
    · rw [ih]
      constructor
      · intro h n hn
        match n with
        | 0 => simpa using hf
        | n' + 1 => simpa using h n' (Nat.lt_of_succ_lt_succ hn)
      · intro h n hn
        simpa using h (n + 1) (Nat.succ_lt_succ hn)
    · constructor
      · intro h; exact absurd h (by simp)
      · intro h
        have := h 0 (by simp)
        simp at this
        rw [hf] at this
        exact absurd this (by simp)

/-- The characters of `stripLeadingOrderWord cs` all come from `cs`. -/
theorem stripLeadingOrderWord_subset (cs : List Char) :
    ∀ c ∈ stripLeadingOrderWord cs, c ∈ cs := by
  intro c hc
  unfold stripLeadingOrderWord at hc
  rcases hm : matchCI "ORDER".data cs with _ | ⟨m, rest⟩ <;> rw [hm] at hc
  · exact hc
  · dsimp only at hc
    by_cases hsp : (rest.takeWhile (fun c => jsIsSpace c)).isEmpty
    · rw [if_pos hsp] at hc; exact hc
    · rw [if_neg hsp] at hc
      obtain ⟨hsplit, _⟩ := matchCI_some _ _ _ _ hm
      have h1 : c ∈ rest := (List.dropWhile_sublist _).subset hc
      rw [hsplit]
      exact List.mem_append_right _ h1

/-! ## Claim theorems -/

/-- C1 (code_bug): on the spec scenario input
`"ORDER ORD1024 STAGE=Packaging ETA=Nov-18"` the order extractor does
not return order_id `ORD1024`: the first regex alternative
`ORD[A-Z0-9]+` already matches the word `ORDER` itself (its `E` and `R`
lie in the character class), so the extractor returns order_id
`"ORDER"`, and it also sets the unconditional default
`status = "Active"`.  Stage and eta are extracted as the scenario
expects. -/
theorem parseOrderUpdate_spec_scenario :
    parseOrderUpdate "ORDER ORD1024 STAGE=Packaging ETA=Nov-18" =
      some { order_id := "ORDER", stage := some "Packaging", priority := none,
             quantity := none, materials := none, eta := some "Nov-18",
             status := "Active", assigned_to := none } ∧
    ("ORDER" : String) ≠ "ORD1024" := by
  exact ⟨by decide, by decide⟩

/-- C2 counterexample: the word `down` is mapped to `Down`, not to
`Error` as the claim requires (the stem check runs against the
title-cased word, in which the stem `down` no longer occurs). -/
theorem normalizeStatus_down_counterexample :
    normalizeStatus "down" = "Down" ∧ ("Down" : String) ≠ "Error" := by
  exact ⟨by decide, by decide⟩

/-- C2 (amended): the normalizer first title-cases the word (first
character uppercased, remainder lowercased) and then checks substring
containment of the lowercase stems against that title-cased form —
case-sensitively, so a stem occurring only at the start of the word is
not recognized — in the order run, idle, maintain, error-or-down, with
title-case passthrough otherwise. -/
theorem normalizeStatus_titlecased_stems (w : String) :
    normalizeStatus w =
      if "run".data <:+: titleCase w.data then "Running"
      else if "idle".data <:+: titleCase w.data then "Idle"
      else if "maintain".data <:+: titleCase w.data then "Maintenance"
      else if "error".data <:+: titleCase w.data ∨ "down".data <:+: titleCase w.data then
        "Error"
      else String.mk (titleCase w.data) := by
  simp only [normalizeStatus, strContains_iff, Bool.or_eq_true]

/-! ### Validator helper lemmas -/

theorem asv_status (u : MachineUpdate) : (applyStatusValidation u).status = u.status := by
  unfold applyStatusValidation
  dsimp only
  repeat' split
  all_goals rfl

/-- Bool form of nonemptiness, convenient to rewrite with. -/
theorem isEmpty_false_of_ne {s : String} (hs : s ≠ "") : s.isEmpty = false := by
  cases hq : s.isEmpty
  · rfl
  · exact absurd ((String.isEmpty_iff _).mp hq) hs

theorem asv_error_of_error (u : MachineUpdate) (h : u.status = some "Error")
    (hb : u.error_message = none ∨ ∃ s, u.error_message = some (some s) ∧ s ≠ "") :
    ∃ msg, (applyStatusValidation u).error_message = some (some msg) ∧ msg ≠ "" := by
  obtain ⟨mid, nm, st, out, em, op⟩ := u
  dsimp only at h
  subst h
  rcases hb with hb | ⟨s, hb, hs⟩
  · dsimp only at hb
    subst hb
    exact ⟨"Machine error detected", rfl, by decide⟩
  · dsimp only at hb
    subst hb
    refine ⟨s, ?_, hs⟩
    have hft : fieldTruthy (some (some s)) = true := by
      simp [fieldTruthy, isEmpty_false_of_ne hs]
    simp [applyStatusValidation, optTruthy, hft, show "Error".isEmpty = false from rfl]

theorem asv_error_of_nonerror (u : MachineUpdate) (stt : String) (h : u.status = some stt)
    (hne : stt ≠ "") (hner : stt ≠ "Error")
    (hb : u.error_message = none ∨ ∃ s, u.error_message = some (some s) ∧ s ≠ "") :
    (applyStatusValidation u).error_message =
      if u.error_message = none then none else some none := by
  obtain ⟨mid, nm, st, out, em, op⟩ := u
  dsimp only at h
  subst h
  rcases hb with hb | ⟨s, hb, hs⟩
  · dsimp only at hb
    subst hb
    simp [applyStatusValidation, optTruthy, hner, isEmpty_false_of_ne hne,
      show fieldTruthy (none : Option (Option String)) = false from rfl]
    split <;> rfl
  · dsimp only at hb
    subst hb
    have hft : fieldTruthy (some (some s)) = true := by
      simp [fieldTruthy, isEmpty_false_of_ne hs]
    simp [applyStatusValidation, optTruthy, hner, isEmpty_false_of_ne hne, hft]
    split <;> rfl

theorem asv_output_of_idle (u : MachineUpdate) (h : u.status = some "Idle") :
    (applyStatusValidation u).output =
      match u.output with
      | some _ => some 0
      | none => none := by
  obtain ⟨mid, nm, st, out, em, op⟩ := u
  dsimp only at h
  subst h
  rcases out with _ | n
  · rcases hft : fieldTruthy em with _ | _ <;>
      simp [applyStatusValidation, optTruthy, hft, show "Idle".isEmpty = false from rfl]
  · rcases hft : fieldTruthy em with _ | _ <;> by_cases hn : n = 0 <;>
      simp [applyStatusValidation, optTruthy, hft, hn, show "Idle".isEmpty = false from rfl]

/-! ### Upsert inversion lemmas -/

theorem updateMachine_ok_iff (store : MStore) (id : String) (u : MachineUpdate) (now : Nat)
    (m' : Machine) (st' : MStore) :
    updateMachine store id u now = .ok (m', st') ↔
      (optTruthy u.status && !VALID_STATUSES.contains (u.status.getD "")) = false ∧
      m' = upsertMachine store id (applyStatusValidation u) now ∧
      st' = fun k =>
        if k = id then some (upsertMachine store id (applyStatusValidation u) now)
        else store k := by
  unfold updateMachine
  rcases hc : (optTruthy u.status && !VALID_STATUSES.contains (u.status.getD "")) with _ | _
  · simp only [Bool.false_eq_true, if_false, Except.ok.injEq, Prod.mk.injEq]
    constructor
    · rintro ⟨h1, h2⟩
      exact ⟨trivial, h1.symm, h2.symm⟩
    · rintro ⟨_, h1, h2⟩
      exact ⟨h1.symm, h2.symm⟩
  · simp only [if_true]
    constructor
    · intro h
      exact absurd h (by simp)
    · rintro ⟨h1, _⟩
      exact absurd h1 (by simp [hc])

theorem updateOrder_ok_iff (store : OStore) (id : String) (u : OrderUpdate) (now : Nat)
    (o' : Order) (st' : OStore) :
    updateOrder store id u now = .ok (o', st') ↔
      (optTruthy u.stage && !VALID_STAGES.contains (u.stage.getD "")) = false ∧
      (optTruthy u.status && !VALID_ORDER_STATUSES.contains (u.status.getD "")) = false ∧
      (optTruthy u.priority && !VALID_PRIORITIES.contains (u.priority.getD "")) = false ∧
      o' = upsertOrder store id u now ∧
      st' = fun k => if k = id then some (upsertOrder store id u now) else store k := by
  unfold updateOrder
  rcases hc1 : (optTruthy u.stage && !VALID_STAGES.contains (u.stage.getD "")) with _ | _
  · rcases hc2 : (optTruthy u.status && !VALID_ORDER_STATUSES.contains (u.status.getD ""))
      with _ | _
    · rcases hc3 : (optTruthy u.priority && !VALID_PRIORITIES.contains (u.priority.getD ""))
        with _ | _
      · simp only [Bool.false_eq_true, if_false, Except.ok.injEq, Prod.mk.injEq]
        constructor
        · rintro ⟨h1, h2⟩
          exact ⟨trivial, trivial, trivial, h1.symm, h2.symm⟩
        · rintro ⟨_, _, _, h1, h2⟩
          exact ⟨h1.symm, h2.symm⟩
      · simp only [Bool.false_eq_true, if_false, if_true]
        constructor
        · intro h
          exact absurd h (by simp)
        · rintro ⟨_, _, h3, _⟩
          exact absurd h3 (by simp [hc3])
    · simp only [Bool.false_eq_true, if_false, if_true]
      constructor
      · intro h
        exact absurd h (by simp)
      · rintro ⟨_, h2, _⟩
        exact absurd h2 (by simp [hc2])
  · simp only [if_true]
    constructor
    · intro h
      exact absurd h (by simp)
    · rintro ⟨h1, _⟩
      exact absurd h1 (by simp [hc1])

/-- C3 counterexample: an existing machine in Error state with
description Overheat, updated with only `{status: "Running"}`, keeps
the stale error description — the non-Error status does not clear the
existing error description, because the validator only clears a
description carried by the patch itself. -/
theorem updateMachine_stale_error_counterexample :
    (updateMachine storeErr "M01" { status := some "Running" } 1).map
        (fun p => (p.1.status, p.1.error_message)) =
      .ok ("Running", some "Overheat") ∧
    (some "Overheat" : Option String) ≠ none := by
  exact ⟨rfl, by simp⟩

/-- C3 (amended): for a successful update whose patch explicitly sets a
status (and carries either no error description or a non-empty one):
setting Error always yields a record with a non-empty error
description; setting a non-Error status clears the description exactly
when the patch itself carried one, and otherwise leaves the existing
record description (or none on creation) in place. -/
theorem updateMachine_error_message_rules
    (store : MStore) (id : String) (u : MachineUpdate) (now : Nat)
    (m' : Machine) (st' : MStore) (stt : String)
    (hok : updateMachine store id u now = .ok (m', st'))
    (hst : u.status = some stt) (hne : stt ≠ "")
    (hb : u.error_message = none ∨ ∃ s, u.error_message = some (some s) ∧ s ≠ "") :
    (stt = "Error" → ∃ msg, m'.error_message = some msg ∧ msg ≠ "") ∧
    (stt ≠ "Error" →
      m'.error_message =
        if u.error_message = none then
          (match store id with
           | some m => m.error_message
           | none => none)
        else none) := by
  obtain ⟨_, hm', _⟩ := (updateMachine_ok_iff store id u now m' st').mp hok
  subst hm'
  constructor
  · intro hERR
    subst hERR
    obtain ⟨msg, hmsg, hmne⟩ := asv_error_of_error u hst hb
    unfold upsertMachine
    rcases hsid : store id with _ | m <;> dsimp only <;> rw [hmsg]
    · exact ⟨msg, rfl, hmne⟩
    · exact ⟨msg, rfl, hmne⟩
  · intro hner
    have hv := asv_error_of_nonerror u stt hst hne hner hb
    unfold upsertMachine
    rcases hsid : store id with _ | m <;> dsimp only <;>
      rcases hbe : u.error_message with _ | e
    · rw [hbe] at hv
      rw [if_pos rfl] at hv
      rw [hv]
      simp
    · rw [hbe] at hv
      rw [if_neg (by simp)] at hv
      rw [hv]
      simp [hbe]
    · rw [hbe] at hv
      rw [if_pos rfl] at hv
      rw [hv]
      simp
    · rw [hbe] at hv
      rw [if_neg (by simp)] at hv
      rw [hv]
      simp [hbe]

/-- C3 witness: updating a fresh store with `{status: Error}` produces
a record whose error description is the non-empty default. -/
theorem updateMachine_error_message_rules_witness :
    ∃ msg,
      ({ machine_id := "M09", name := "Machine M09", status := "Error", output := 0,
         error_message := some "Machine error detected", operator := none,
         last_updated := 1 } : Machine).error_message = some msg ∧ msg ≠ "" := by
  have h := updateMachine_error_message_rules emptyM "M09" { status := some "Error" } 1
    { machine_id := "M09", name := "Machine M09", status := "Error", output := 0,
      error_message := some "Machine error detected", operator := none, last_updated := 1 }
    (fun k =>
      if k = "M09" then
        some { machine_id := "M09", name := "Machine M09", status := "Error", output := 0,
               error_message := some "Machine error detected", operator := none,
               last_updated := 1 }
      else emptyM k)
    "Error" rfl rfl (by decide) (Or.inl rfl)
  exact h.1 rfl

/-- C4 counterexample: updating an existing machine with output 80 by
`{status: "Idle"}` alone leaves output 80 — the validator forces output
to zero only when the patch itself mentions output. -/
theorem updateMachine_idle_output_counterexample :
    (updateMachine storeRun "M02" { status := some "Idle" } 1).map
        (fun p => (p.1.status, p.1.output)) =
      .ok ("Idle", 80) ∧ (80 : Nat) ≠ 0 := by
  exact ⟨rfl, by decide⟩

/-- C4 (amended): a successful update that sets status Idle yields
output 0 exactly when the patch mentions output or no record existed
(creation defaults output to 0); when the patch omits output, an
existing record keeps its previous output. -/
theorem updateMachine_idle_output
    (store : MStore) (id : String) (u : MachineUpdate) (now : Nat)
    (m' : Machine) (st' : MStore)
    (hok : updateMachine store id u now = .ok (m', st'))
    (hst : u.status = some "Idle") :
    m'.output =
      match u.output with
      | some _ => 0
      | none =>
        (match store id with
         | some m => m.output
         | none => 0) := by
  obtain ⟨_, hm', _⟩ := (updateMachine_ok_iff store id u now m' st').mp hok
  subst hm'
  have hv := asv_output_of_idle u hst
  unfold upsertMachine
  rcases hsid : store id with _ | m <;> dsimp only <;> rcases hbo : u.output with _ | n
  · rw [hbo] at hv
    rw [hv]
    rfl
  · rw [hbo] at hv
    rw [hv]
    rfl
  · rw [hbo] at hv
    rw [hv]
    rfl
  · rw [hbo] at hv
    rw [hv]
    rfl

/-- C4 witness: a patch `{status: Idle, output: 50}` on a fresh store
produces output 0. -/
theorem updateMachine_idle_output_witness :
    ({ machine_id := "M09", name := "Machine M09", status := "Idle", output := 0,
       error_message := none, operator := none, last_updated := 1 } : Machine).output = 0 := by
  have h := updateMachine_idle_output emptyM "M09"
    { status := some "Idle", output := some 50 } 1
    { machine_id := "M09", name := "Machine M09", status := "Idle", output := 0,
      error_message := none, operator := none, last_updated := 1 }
    (fun k =>
      if k = "M09" then
        some { machine_id := "M09", name := "Machine M09", status := "Idle", output := 0,
               error_message := none, operator := none, last_updated := 1 }
      else emptyM k)
    rfl rfl
  exact h

/-- C5 (confirmed): updating an existing machine that has output 80 and
operator Arun with only `{status: "Running"}` yields exactly the prior
record with status replaced and the timestamp refreshed; every other
field, and every other key of the store, is unchanged. -/
theorem updateMachine_merge_frame
    (store : MStore) (id : String) (m : Machine) (now : Nat)
    (hex : store id = some m) (hout : m.output = 80) (hop : m.operator = some "Arun") :
    ∃ st', updateMachine store id { status := some "Running" } now =
        .ok ({ m with status := "Running", last_updated := now }, st') ∧
      st' id = some { m with status := "Running", last_updated := now } ∧
      ∀ k, k ≠ id → st' k = store k := by
  have h2 : upsertMachine store id
      (applyStatusValidation { status := some "Running" }) now =
      { m with status := "Running", last_updated := now } := by
    unfold upsertMachine
    rw [hex]
    rfl
  refine ⟨fun k =>
    if k = id then some { m with status := "Running", last_updated := now } else store k,
    ?_, by simp, fun k hk => by simp [hk]⟩
  apply (updateMachine_ok_iff store id { status := some "Running" } now _ _).mpr
  refine ⟨by decide, h2.symm, ?_⟩
  rw [h2]

/-- C5 witness at the concrete store holding machine M02. -/
theorem updateMachine_merge_frame_witness :
    ∃ st', updateMachine storeRun "M02" { status := some "Running" } 1 =
        .ok ({ mRun with status := "Running", last_updated := 1 }, st') ∧
      st' "M02" = some { mRun with status := "Running", last_updated := 1 } ∧
      ∀ k, k ≠ "M02" → st' k = storeRun k :=
  updateMachine_merge_frame storeRun "M02" mRun 1 rfl rfl rfl

/-! ### Label scans leave a trace in the uppercased text -/

theorem labelCap_matchCI {lab : List Char} {cap : List Char → Option (List Char × List Char)}
    {cs0 : List Char} {r : List Char} (h : labelCap lab cap cs0 = some r) :
    ∃ m rest, matchCI lab cs0 = some (m, rest) := by
  unfold labelCap at h
  rcases hm : matchCI lab cs0 with _ | ⟨m, rest⟩
  · rw [hm] at h
    exact absurd h (by simp)
  · exact ⟨m, rest, rfl⟩

/-- A case-insensitive match of an all-uppercase-letter label maps to
the label under `jsToUpper`. -/
theorem upperLabel_map {lab : List Char}
    (hlab : ∀ a ∈ lab, ∃ p ∈ caseTable, p.1 = a) :
    ∀ {m}, List.Forall₂ (fun a b => eqI a b = true) lab m → m.map jsToUpper = lab := by
  intro m h
  induction h with
  | nil => rfl
  | @cons a b l1 l2 hab htail ih =>
    obtain ⟨p, hp, hp1⟩ := hlab a (by simp)
    have hmem : (a, p.2) ∈ caseTable := by rw [← hp1]; exact hp
    have hup : jsToUpper b = a := (eqI_iff_jsToUpper a p.2 b hmem).mp hab
    simp only [List.map_cons, hup]
    rw [ih (fun x hx => hlab x (by simp [hx]))]

/-- A successful label scan implies the uppercase label occurs in the
uppercased text. -/
theorem scanFirst_labelCap_occurs {lab : List Char}
    {cap : List Char → Option (List Char × List Char)} {cs : List Char} {r : List Char}
    (hlab : ∀ a ∈ lab, ∃ p ∈ caseTable, p.1 = a)
    (h : scanFirst (labelCap lab cap) cs = some r) :
    lab <:+: cs.map jsToUpper := by
  obtain ⟨n, hn, hsome, _⟩ := (scanFirst_eq_some_iff _ cs r).mp h
  obtain ⟨m, rest, hm⟩ := labelCap_matchCI hsome
  obtain ⟨hsplit, hall⟩ := matchCI_some _ _ _ _ hm
  have hmap : m.map jsToUpper = lab := upperLabel_map hlab hall
  refine ⟨(cs.take n).map jsToUpper, rest.map jsToUpper, ?_⟩
  rw [← hmap, ← List.map_append, ← List.map_append, List.append_assoc, ← hsplit,
    List.take_append_drop]

/-- C6 counterexample: a message that never mentions STATUS still gets
`status = "Active"` from the extractor — the extractor does not consult
the store, so the default also applies when the order already exists,
and the claimed "no status field in the output" is false. -/
theorem parseOrderUpdate_status_default_counterexample :
    (parseOrderUpdate "ORD77 QTY=5").map (fun p => p.status) = some "Active" ∧
    ¬("STATUS".data <:+: "ORD77 QTY=5".data.map jsToUpper) := by
  exact ⟨by decide, by decide⟩

/-- C6 (amended): the order extractor sets `status` to Active whenever
the message does not contain the token STATUS (case-insensitively),
regardless of whether the order already exists; consequently the merge
overwrites an existing order's status with Active. -/
theorem parseOrderUpdate_active_default :
    (∀ (s : String) (p : OrderParsed), parseOrderUpdate s = some p →
      ¬("STATUS".data <:+: s.data.map jsToUpper) → p.status = "Active") ∧
    (∀ (store : OStore) (id : String) (u : OrderUpdate) (now : Nat) (o o' : Order)
        (st' : OStore), store id = some o → u.status = some "Active" →
      updateOrder store id u now = .ok (o', st') → o'.status = "Active") := by
  constructor
  · intro s p hparse hno
    unfold parseOrderUpdate at hparse
    by_cases hemp : s.data.isEmpty
    · rw [if_pos hemp] at hparse
      exact absurd hparse (by simp)
    · rw [if_neg hemp] at hparse
      dsimp only at hparse
      rcases hid : scanFirstPrev ordIdLocal none s.data with _ | tok
      · rw [hid] at hparse
        exact absurd hparse (by simp)
      · rw [hid] at hparse
        dsimp only at hparse
        rcases hscan : scanFirst
            (labelCap "STATUS".data
              (capAlts ["Active".data, "OnHold".data, "Completed".data, "Cancelled".data]))
            s.data with _ | w
        · rw [hscan] at hparse
          have hp := Option.some.inj hparse
          rw [← hp]
        · exact absurd (scanFirst_labelCap_occurs (by decide) hscan) hno
  · intro store id u now o o' st' hex hst hok
    obtain ⟨_, _, _, ho', _⟩ := (updateOrder_ok_iff store id u now o' st').mp hok
    subst ho'
    unfold upsertOrder
    rw [hex]
    dsimp only
    rw [hst]
    rfl

/-! ### Classifier bridging lemmas -/

theorem scanFirst_isSome_iff {α : Type} (f : List Char → Option α) (cs : List Char) :
    (scanFirst f cs).isSome = true ↔ ∃ n, n < cs.length ∧ (f (cs.drop n)).isSome = true := by
  induction cs with
  | nil => simp [scanFirst]
  | cons c cs ih =>
    simp only [scanFirst]
    rcases hf : f (c :: cs) with _ | r'
    · rw [ih]
      constructor
      · rintro ⟨n, hn, hs⟩
        exact ⟨n + 1, by simpa using Nat.succ_lt_succ hn, by simpa using hs⟩
      · rintro ⟨n, hn, hs⟩
        match n with
        | 0 =>
          rw [List.drop_zero, hf] at hs
          exact absurd hs (by simp)
        | n' + 1 => exact ⟨n', Nat.lt_of_succ_lt_succ hn, by simpa using hs⟩
    · constructor
      · intro _
        exact ⟨0, by simp, by simp [hf]⟩
      · intro _
        simp

theorem startsWithMDigits_iff (cs : List Char) :
    startsWithMDigits cs = true ↔
      ∃ c d r, cs = c :: d :: r ∧ jsToUpper c = 'M' ∧ d.isDigit = true := by
  rcases cs with _ | ⟨c, _ | ⟨d, r⟩⟩
  · simp [startsWithMDigits, mDigits]
  · constructor
    · intro h
      unfold startsWithMDigits mDigits at h
      dsimp only at h
      by_cases he : eqI 'M' c = true
      · rw [if_pos he] at h
        simp at h
      · rw [if_neg he] at h
        simp at h
    · rintro ⟨c', d', r', heq, _, _⟩
      exact absurd heq (by simp)
  · constructor
    · intro h
      unfold startsWithMDigits mDigits at h
      dsimp only at h
      by_cases he : eqI 'M' c = true
      · rw [if_pos he] at h
        by_cases hd : d.isDigit = true
        · exact ⟨c, d, r, rfl, (eqI_iff_jsToUpper 'M' 'm' c (by decide)).mp he, hd⟩
        · rw [show ((d :: r).takeWhile (fun c => c.isDigit)) = [] by
            simp [List.takeWhile_cons, hd]] at h
          simp at h
      · rw [if_neg he] at h
        simp at h
    · rintro ⟨c', d', r', heq, hup, hd⟩
      obtain ⟨h1, h2, h3⟩ : c = c' ∧ d = d' ∧ r = r' := by
        injection heq with ha hb
        injection hb with hb hc
        exact ⟨ha, hb, hc⟩
      subst h1; subst h2; subst h3
      have he : eqI 'M' c = true := (eqI_iff_jsToUpper 'M' 'm' c (by decide)).mpr hup
      unfold startsWithMDigits mDigits
      dsimp only
      rw [if_pos he]
      rw [show ((d :: r).takeWhile (fun c => c.isDigit)) = d :: r.takeWhile (fun c => c.isDigit)
        by simp [List.takeWhile_cons, hd]]
      simp

theorem machineStartSpec_iff (s : String) :
    startsWithMDigits (jsTrim s.data) = true ↔ MachineStartSpec s :=
  startsWithMDigits_iff (jsTrim s.data)

theorem containsTokenSpec_iff (s : String) (tok : List Char) :
    strContains tok (s.data.map jsToUpper) = true ↔ ContainsTokenSpec s tok :=
  strContains_iff tok (s.data.map jsToUpper)

theorem ordDigits_scan_iff (s : String) :
    (scanFirst ordDigits s.data).isSome = true ↔ OrdCodeSpec s := by
  rw [scanFirst_isSome_iff]
  constructor
  · rintro ⟨n, hn, hs⟩
    rw [Option.isSome_iff_exists] at hs
    obtain ⟨tok, htok⟩ := hs
    unfold ordDigits at htok
    rcases hm : matchCI "ORD".data (s.data.drop n) with _ | ⟨m, rest⟩
    · rw [hm] at htok
      exact absurd htok (by simp)
    · rw [hm] at htok
      dsimp only at htok
      by_cases hemp : (rest.takeWhile (fun c => c.isDigit)).isEmpty = true
      · rw [if_pos hemp] at htok
        exact absurd htok (by simp)
      · obtain ⟨hsplit, hall⟩ := matchCI_some _ _ _ _ hm
        rcases hall with _ | @⟨_, b1, _, m1, e1, hall⟩
        rcases hall with _ | @⟨_, b2, _, m2, e2, hall⟩
        rcases hall with _ | @⟨_, b3, _, m3, e3, hall⟩
        rcases hall
        rcases rest with _ | ⟨d, r''⟩
        · exact absurd (by decide) hemp
        · by_cases hd : d.isDigit = true
          · refine ⟨s.data.take n, r'', b1, b2, b3, d, ?_, ?_, ?_, ?_, hd⟩
            · conv_lhs => rw [← List.take_append_drop n s.data]
              rw [hsplit]
              rfl
            · exact (eqI_iff_jsToUpper 'O' 'o' _ (by decide)).mp e1
            · exact (eqI_iff_jsToUpper 'R' 'r' _ (by decide)).mp e2
            · exact (eqI_iff_jsToUpper 'D' 'd' _ (by decide)).mp e3
          · exact absurd (by simp [List.takeWhile_cons, hd]) hemp
  · rintro ⟨l, r, c1, c2, c3, d, heq, h1, h2, h3, hd⟩
    have e1 : eqI 'O' c1 = true := (eqI_iff_jsToUpper 'O' 'o' c1 (by decide)).mpr h1
    have e2 : eqI 'R' c2 = true := (eqI_iff_jsToUpper 'R' 'r' c2 (by decide)).mpr h2
    have e3 : eqI 'D' c3 = true := (eqI_iff_jsToUpper 'D' 'd' c3 (by decide)).mpr h3
    refine ⟨l.length, ?_, ?_⟩
    · rw [heq]
      simp
    · rw [heq, List.drop_left]
      have hm : matchCI "ORD".data (c1 :: c2 :: c3 :: d :: r) =
          some ([c1, c2, c3], d :: r) := by
        show matchCI ['O', 'R', 'D'] (c1 :: c2 :: c3 :: d :: r) = some ([c1, c2, c3], d :: r)
        simp [matchCI, e1, e2, e3]
      unfold ordDigits
      rw [hm]
      dsimp only
      rw [show ((d :: r).takeWhile (fun c => c.isDigit)) = d :: r.takeWhile (fun c => c.isDigit)
        by simp [List.takeWhile_cons, hd]]
      simp

instance (s : String) : Decidable (MachineStartSpec s) :=
  decidable_of_iff (startsWithMDigits (jsTrim s.data) = true) (machineStartSpec_iff s)

instance (s : String) (tok : List Char) : Decidable (ContainsTokenSpec s tok) :=
  decidable_of_iff (strContains tok (s.data.map jsToUpper) = true) (containsTokenSpec_iff s tok)

instance (s : String) : Decidable (OrdCodeSpec s) :=
  decidable_of_iff ((scanFirst ordDigits s.data).isSome = true) (ordDigits_scan_iff s)

/-- C7 (confirmed): the classifier implements exactly the claimed
tie-break order — machine-code prefix on the trimmed text first, then
the SAFETY token, then the ORDER token or an ORD+digits code anywhere,
all case-insensitively, with Unknown otherwise and for empty input
(non-string inputs lie outside the string model). -/
theorem detectIntent_spec (s : String) :
    detectIntent s =
      if s.data = [] then "UNKNOWN"
      else if MachineStartSpec s then "MACHINE_UPDATE"
      else if ContainsTokenSpec s "SAFETY".data then "SAFETY_UPDATE"
      else if ContainsTokenSpec s "ORDER".data ∨ OrdCodeSpec s then "ORDER_UPDATE"
      else "UNKNOWN" := by
  unfold detectIntent
  simp only [List.isEmpty_iff, machineStartSpec_iff, containsTokenSpec_iff,
    ordDigits_scan_iff, Bool.or_eq_true]

/-- C6 witness: both conjuncts applied at concrete inputs — extraction
of `"ORD77 QTY=5"` (no STATUS token) defaults to Active, and merging
`{status: "Active"}` over the on-hold order overwrites its status. -/
theorem parseOrderUpdate_active_default_witness :
    ({ order_id := "ORD77", stage := none, priority := none, quantity := some 5,
       materials := none, eta := none, status := "Active",
       assigned_to := none } : OrderParsed).status = "Active" ∧
    (upsertOrder storeHold "ORD77" { status := some "Active" } 1).status = "Active" := by
  constructor
  · exact parseOrderUpdate_active_default.1 "ORD77 QTY=5" _ (by decide) (by decide)
  · exact parseOrderUpdate_active_default.2 storeHold "ORD77" { status := some "Active" } 1
      oHold (upsertOrder storeHold "ORD77" { status := some "Active" } 1)
      (fun k =>
        if k = "ORD77" then some (upsertOrder storeHold "ORD77" { status := some "Active" } 1)
        else storeHold k)
      rfl rfl rfl


/-- C8 (confirmed): batch processing is per-item and order-preserving —
the outcome list has the length of the input list; an item with a
missing (falsy) business key yields a per-item failure at the same
index and leaves the store untouched for the remaining items; an item
whose individual upsert fails (for orders and for machines) is
recorded as a per-item failure carrying its key and the propagated
error, again leaving the store for the remaining items untouched,
while a succeeding item contributes its record and only its own store
update; on the concrete 3-item order batch whose second item lacks an
order code, the outcomes are success/failure/success and the
controller aggregate counts 2 succeeded / 1 failed; and on a 3-item
batch whose second item fails its upsert (invalid stage), the middle
outcome is that item's failure while both neighbours succeed and are
persisted, the failing key staying absent from the store.  The batch
function is total on lists (the whole call can only fail on a
non-array input, which lies outside the list model). -/
theorem batchUpdate_per_item :
    (∀ (store : OStore) (items : List OrderUpdate) (now : Nat),
      (batchUpdateOrders store items now).1.length = items.length) ∧
    (∀ (store : MStore) (items : List MachineUpdate) (now : Nat),
      (batchUpdateMachines store items now).1.length = items.length) ∧
    (∀ (store : OStore) (item : OrderUpdate) (rest : List OrderUpdate) (now : Nat),
      optTruthy item.order_id = false →
      batchUpdateOrders store (item :: rest) now =
        (OOutcome.failure "unknown" "order_id is required" ::
          (batchUpdateOrders store rest now).1,
         (batchUpdateOrders store rest now).2)) ∧
    (∀ (store : OStore) (items : List OrderUpdate) (now : Nat) (i : Nat) (item : OrderUpdate),
      items.get? i = some item → optTruthy item.order_id = false →
      (batchUpdateOrders store items now).1.get? i =
        some (OOutcome.failure "unknown" "order_id is required")) ∧
    (∀ (store : OStore) (item : OrderUpdate) (rest : List OrderUpdate) (now : Nat)
        (e : String),
      optTruthy item.order_id = true →
      updateOrder store (item.order_id.getD "") item now = .error e →
      batchUpdateOrders store (item :: rest) now =
        (OOutcome.failure (item.order_id.getD "") e ::
          (batchUpdateOrders store rest now).1,
         (batchUpdateOrders store rest now).2)) ∧
    (∀ (store : OStore) (item : OrderUpdate) (rest : List OrderUpdate) (now : Nat)
        (o : Order) (st : OStore),
      optTruthy item.order_id = true →
      updateOrder store (item.order_id.getD "") item now = .ok (o, st) →
      batchUpdateOrders store (item :: rest) now =
        (OOutcome.success o :: (batchUpdateOrders st rest now).1,
         (batchUpdateOrders st rest now).2)) ∧
    (∀ (store : MStore) (item : MachineUpdate) (rest : List MachineUpdate) (now : Nat)
        (e : String),
      optTruthy item.machine_id = true →
      updateMachine store (item.machine_id.getD "") item now = .error e →
      batchUpdateMachines store (item :: rest) now =
        (MOutcome.failure (item.machine_id.getD "") e ::
          (batchUpdateMachines store rest now).1,
         (batchUpdateMachines store rest now).2)) ∧
    ((batchUpdateOrders emptyO
        [{ order_id := some "ORD1", stage := some "Packaging" },
         { stage := some "Shipping" },
         { order_id := some "ORD3", quantity := some 4 }] 1).1.map OOutcome.isSuccess =
      [true, false, true] ∧
      successCountO (batchUpdateOrders emptyO
        [{ order_id := some "ORD1", stage := some "Packaging" },
         { stage := some "Shipping" },
         { order_id := some "ORD3", quantity := some 4 }] 1).1 = 2 ∧
      failureCountO (batchUpdateOrders emptyO
        [{ order_id := some "ORD1", stage := some "Packaging" },
         { stage := some "Shipping" },
         { order_id := some "ORD3", quantity := some 4 }] 1).1 = 1) ∧
    ((batchUpdateOrders emptyO
        [{ order_id := some "ORD1", stage := some "Packaging" },
         { order_id := some "ORD2", stage := some "Bogus" },
         { order_id := some "ORD3", quantity := some 4 }] 1).1.map OOutcome.isSuccess =
      [true, false, true] ∧
      (batchUpdateOrders emptyO
        [{ order_id := some "ORD1", stage := some "Packaging" },
         { order_id := some "ORD2", stage := some "Bogus" },
         { order_id := some "ORD3", quantity := some 4 }] 1).1.get? 1 =
        some (OOutcome.failure "ORD2"
          "Failed to update order ORD2: Invalid stage: Bogus. Must be one of: Planning, Production, Quality, Packaging, Shipping, Completed") ∧
      successCountO (batchUpdateOrders emptyO
        [{ order_id := some "ORD1", stage := some "Packaging" },
         { order_id := some "ORD2", stage := some "Bogus" },
         { order_id := some "ORD3", quantity := some 4 }] 1).1 = 2 ∧
      failureCountO (batchUpdateOrders emptyO
        [{ order_id := some "ORD1", stage := some "Packaging" },
         { order_id := some "ORD2", stage := some "Bogus" },
         { order_id := some "ORD3", quantity := some 4 }] 1).1 = 1 ∧
      ((batchUpdateOrders emptyO
        [{ order_id := some "ORD1", stage := some "Packaging" },
         { order_id := some "ORD2", stage := some "Bogus" },
         { order_id := some "ORD3", quantity := some 4 }] 1).2 "ORD2") = none ∧
      ((batchUpdateOrders emptyO
        [{ order_id := some "ORD1", stage := some "Packaging" },
         { order_id := some "ORD2", stage := some "Bogus" },
         { order_id := some "ORD3", quantity := some 4 }] 1).2 "ORD1").isSome = true ∧
      ((batchUpdateOrders emptyO
        [{ order_id := some "ORD1", stage := some "Packaging" },
         { order_id := some "ORD2", stage := some "Bogus" },
         { order_id := some "ORD3", quantity := some 4 }] 1).2 "ORD3").isSome = true) := by
  have hlenO : ∀ (items : List OrderUpdate) (store : OStore) (now : Nat),
      (batchUpdateOrders store items now).1.length = items.length := by
    intro items
    induction items with
    | nil => intro store now; rfl
    | cons d rest ih =>
      intro store now
      simp only [batchUpdateOrders, List.length_cons]
      rw [ih]
  have hlenM : ∀ (items : List MachineUpdate) (store : MStore) (now : Nat),
      (batchUpdateMachines store items now).1.length = items.length := by
    intro items
    induction items with
    | nil => intro store now; rfl
    | cons d rest ih =>
      intro store now
      simp only [batchUpdateMachines, List.length_cons]
      rw [ih]
  have hskip : ∀ (store : OStore) (item : OrderUpdate) (rest : List OrderUpdate) (now : Nat),
      optTruthy item.order_id = false →
      batchUpdateOrders store (item :: rest) now =
        (OOutcome.failure "unknown" "order_id is required" ::
          (batchUpdateOrders store rest now).1,
         (batchUpdateOrders store rest now).2) := by
    intro store item rest now h
    simp only [batchUpdateOrders, orderItemOutcome, h]
    rfl
  have herrO : ∀ (store : OStore) (item : OrderUpdate) (rest : List OrderUpdate) (now : Nat)
      (e : String),
      optTruthy item.order_id = true →
      updateOrder store (item.order_id.getD "") item now = .error e →
      batchUpdateOrders store (item :: rest) now =
        (OOutcome.failure (item.order_id.getD "") e ::
          (batchUpdateOrders store rest now).1,
         (batchUpdateOrders store rest now).2) := by
    intro store item rest now e ht herr
    simp only [batchUpdateOrders, orderItemOutcome, ht, herr, Bool.not_true,
      Bool.false_eq_true, if_false]
  have hokO : ∀ (store : OStore) (item : OrderUpdate) (rest : List OrderUpdate) (now : Nat)
      (o : Order) (st : OStore),
      optTruthy item.order_id = true →
      updateOrder store (item.order_id.getD "") item now = .ok (o, st) →
      batchUpdateOrders store (item :: rest) now =
        (OOutcome.success o :: (batchUpdateOrders st rest now).1,
         (batchUpdateOrders st rest now).2) := by
    intro store item rest now o st ht hok
    simp only [batchUpdateOrders, orderItemOutcome, ht, hok, Bool.not_true,
      Bool.false_eq_true, if_false]
  have herrM : ∀ (store : MStore) (item : MachineUpdate) (rest : List MachineUpdate)
      (now : Nat) (e : String),
      optTruthy item.machine_id = true →
      updateMachine store (item.machine_id.getD "") item now = .error e →
      batchUpdateMachines store (item :: rest) now =
        (MOutcome.failure (item.machine_id.getD "") e ::
          (batchUpdateMachines store rest now).1,
         (batchUpdateMachines store rest now).2) := by
    intro store item rest now e ht herr
    simp only [batchUpdateMachines, machineItemOutcome, ht, herr, Bool.not_true,
      Bool.false_eq_true, if_false]
  refine ⟨fun store items now => hlenO items store now,
    fun store items now => hlenM items store now, hskip, ?_, herrO, hokO, herrM,
    ⟨by decide, by decide, by decide⟩,
    ⟨by decide, by decide, by decide, by decide, by decide, by decide, by decide⟩⟩
  intro store items now
  induction items generalizing store with
  | nil => intro i item h _; simp at h
  | cons d rest ih =>
    intro i item hget hfal
    match i with
    | 0 =>
      simp only [List.get?] at hget
      obtain rfl : d = item := by
        injection hget
      simp only [batchUpdateOrders, orderItemOutcome, hfal]
      rfl
    | i + 1 =>
      simp only [List.get?] at hget
      have := ih ((orderItemOutcome store d now).2) i item hget hfal
      simpa only [batchUpdateOrders, List.get?] using this



/-- C8 witness: an item without an order code produces the per-item
failure outcome at its own index, and an item whose upsert fails
(invalid stage) is recorded as a per-item failure carrying its key and
the propagated error, with the remaining items processed on the
untouched store. -/
theorem batchUpdate_per_item_witness :
    ((batchUpdateOrders emptyO [({ stage := some "Shipping" } : OrderUpdate)] 1).1.get? 0 =
      some (OOutcome.failure "unknown" "order_id is required")) ∧
    (batchUpdateOrders emptyO
        [({ order_id := some "ORD2", stage := some "Bogus" } : OrderUpdate)] 1 =
      (OOutcome.failure "ORD2"
          "Failed to update order ORD2: Invalid stage: Bogus. Must be one of: Planning, Production, Quality, Packaging, Shipping, Completed" ::
        (batchUpdateOrders emptyO [] 1).1,
       (batchUpdateOrders emptyO [] 1).2)) :=
  ⟨batchUpdate_per_item.2.2.2.1 emptyO [{ stage := some "Shipping" }] 1 0
    { stage := some "Shipping" } rfl rfl,
   batchUpdate_per_item.2.2.2.2.1 emptyO { order_id := some "ORD2", stage := some "Bogus" }
    [] 1
    "Failed to update order ORD2: Invalid stage: Bogus. Must be one of: Planning, Production, Quality, Packaging, Shipping, Completed"
    rfl rfl⟩

/-! ### Uppercase canonicalization of business keys (C10) -/

theorem mDigits_some_elim {cs tok : List Char} (h : mDigits cs = some tok) :
    ∃ c rest, cs = c :: rest ∧ eqI 'M' c = true ∧
      rest.takeWhile (fun x => x.isDigit) ≠ [] ∧
      tok = c :: rest.takeWhile (fun x => x.isDigit) := by
  rcases cs with _ | ⟨c, rest⟩
  · simp [mDigits] at h
  · unfold mDigits at h
    dsimp only at h
    by_cases he : eqI 'M' c = true
    · rw [if_pos he] at h
      by_cases hemp : (rest.takeWhile (fun x => x.isDigit)).isEmpty = true
      · rw [if_pos hemp] at h
        exact absurd h (by simp)
      · rw [if_neg hemp] at h
        refine ⟨c, rest, rfl, he, ?_, ?_⟩
        · intro hh
          rw [hh] at hemp
          exact hemp rfl
        · exact (Option.some.inj h).symm
    · rw [if_neg he] at h
      exact absurd h (by simp)

theorem head_dropWhile_not (p : Char → Bool) (l : List Char) :
    ((l.dropWhile p).head?).all (fun x => !p x) = true := by
  induction l with
  | nil => rfl
  | cons c l ih =>
    by_cases hc : p c = true
    · simpa [List.dropWhile_cons, hc] using ih
    · simp [List.dropWhile_cons, hc]

theorem map_eq_self_of {f : Char → Char} :
    ∀ {l : List Char}, (∀ c ∈ l, f c = c) → l.map f = l := by
  intro l h
  induction l with
  | nil => rfl
  | cons c t ih => simp [h c (by simp), ih (fun x hx => h x (by simp [hx]))]

/-- C10 (confirmed): business keys are canonicalized to uppercase at
extraction.  A successful machine extraction returns as machine_id the
uppercased first `M`+digits token of the text (maximal digit run, no
earlier occurrence); a successful order extraction returns an order_id
that is all uppercase, so differently-cased mentions of the same code
map to the same business key. -/
theorem parse_ids_uppercase :
    (∀ (s : String) (p : MachineParsed), parseMachineUpdate s = some p →
      ∃ pre c ds suf,
        s.data = pre ++ c :: (ds ++ suf) ∧
        jsToUpper c = 'M' ∧ ds ≠ [] ∧ (∀ d ∈ ds, d.isDigit = true) ∧
        (suf.head?.all (fun x => !x.isDigit)) = true ∧
        (∀ i, i < pre.length →
          ¬∃ c' d' r', s.data.drop i = c' :: d' :: r' ∧
            jsToUpper c' = 'M' ∧ d'.isDigit = true) ∧
        p.machine_id = String.mk ((c :: ds).map jsToUpper)) ∧
    (∀ (s : String) (p : OrderParsed), parseOrderUpdate s = some p →
      p.order_id.data.map jsToUpper = p.order_id.data) := by
  constructor
  · intro s p hparse
    unfold parseMachineUpdate at hparse
    by_cases hemp : s.data.isEmpty = true
    · rw [if_pos hemp] at hparse
      exact absurd hparse (by simp)
    · rw [if_neg hemp] at hparse
      dsimp only at hparse
      rcases hid : scanFirst mDigits s.data with _ | tok
      · rw [hid] at hparse
        exact absurd hparse (by simp)
      · rw [hid] at hparse
        dsimp only at hparse
        have hp := Option.some.inj hparse
        obtain ⟨n, hn, hsome, hnone⟩ := (scanFirst_eq_some_iff mDigits s.data tok).mp hid
        obtain ⟨c, rest, hdr, he, hds, htok⟩ := mDigits_some_elim hsome
        refine ⟨s.data.take n, c, rest.takeWhile (fun x => x.isDigit),
          rest.dropWhile (fun x => x.isDigit), ?_, ?_, hds, ?_, ?_, ?_, ?_⟩
        · conv_lhs => rw [← List.take_append_drop n s.data]
          rw [hdr, List.takeWhile_append_dropWhile]
        · exact (eqI_iff_jsToUpper 'M' 'm' c (by decide)).mp he
        · intro d hd
          exact List.mem_takeWhile_imp hd
        · exact head_dropWhile_not _ rest
        · intro i hi hex
          obtain ⟨c', d', r', hdrop, hup, hdig⟩ := hex
          have hlen : (s.data.take n).length = n := by
            rw [List.length_take]
            omega
          rw [hlen] at hi
          have hmd := hnone i hi
          have : startsWithMDigits (s.data.drop i) = true :=
            (startsWithMDigits_iff (s.data.drop i)).mpr ⟨c', d', r', hdrop, hup, hdig⟩
          unfold startsWithMDigits at this
          rw [hmd] at this
          exact absurd this (by simp)
        · rw [← hp, htok]
  · intro s p hparse
    unfold parseOrderUpdate at hparse
    by_cases hemp : s.data.isEmpty = true
    · rw [if_pos hemp] at hparse
      exact absurd hparse (by simp)
    · rw [if_neg hemp] at hparse
      dsimp only at hparse
      rcases hid : scanFirstPrev ordIdLocal none s.data with _ | tok
      · rw [hid] at hparse
        exact absurd hparse (by simp)
      · rw [hid] at hparse
        dsimp only at hparse
        have hp := Option.some.inj hparse
        rw [← hp]
        show (orderIdOf tok).map jsToUpper = orderIdOf tok
        refine map_eq_self_of ?_
        intro ch hch
        unfold orderIdOf at hch
        by_cases hpre : "ORD".data.isPrefixOf (stripLeadingOrderWord (tok.map jsToUpper)) = true
        · rw [if_pos hpre] at hch
          have h1 := stripLeadingOrderWord_subset (tok.map jsToUpper) ch hch
          obtain ⟨x, _, hx⟩ := List.mem_map.mp h1
          rw [← hx]
          exact jsToUpper_idem x
        · rw [if_neg hpre] at hch
          rcases List.mem_append.mp hch with hm | hm
          · fin_cases hm <;> decide
          · have h1 := stripLeadingOrderWord_subset (tok.map jsToUpper) ch hm
            obtain ⟨x, _, hx⟩ := List.mem_map.mp h1
            rw [← hx]
            exact jsToUpper_idem x

/-- C10 witness: the machine part applied to a lowercase mention
`m03`, and the order part applied to `ord9`. -/
theorem parse_ids_uppercase_witness :
    (∃ pre c ds suf,
      ("m03 OUTPUT=5" : String).data = pre ++ c :: (ds ++ suf) ∧
      jsToUpper c = 'M' ∧ ds ≠ [] ∧ (∀ d ∈ ds, d.isDigit = true) ∧
      (suf.head?.all (fun x => !x.isDigit)) = true ∧
      (∀ i, i < pre.length →
        ¬∃ c' d' r', ("m03 OUTPUT=5" : String).data.drop i = c' :: d' :: r' ∧
          jsToUpper c' = 'M' ∧ d'.isDigit = true) ∧
      ({ machine_id := "M03", status := none, output := some 5, error_message := none,
         operator := none } : MachineParsed).machine_id =
        String.mk ((c :: ds).map jsToUpper)) ∧
    ({ order_id := "ORD9", stage := none, priority := none, quantity := none,
       materials := none, eta := none, status := "Active",
       assigned_to := none } : OrderParsed).order_id.data.map jsToUpper =
      ({ order_id := "ORD9", stage := none, priority := none, quantity := none,
         materials := none, eta := none, status := "Active",
         assigned_to := none } : OrderParsed).order_id.data :=
  ⟨parse_ids_uppercase.1 "m03 OUTPUT=5" _ (by decide),
   parse_ids_uppercase.2 "ord9" _ (by decide)⟩


end ShopFloor
